import Mathlib

/-!
Shallow embedding of the aperf trigger-driven monitoring engine
(src/monitor.rs, src/record.rs, src/trigger_parser.rs).

Strings from the Rust source are modelled as `List Char`; `u64`/`u32`
counters and wall-clock seconds are modelled as `Nat` (the loop counters
reset long before any 2^32 wrap could be reached, and no arithmetic here
overflows); `f64` values are modelled by `FVal` (NaN, the two infinities,
or an exact rational — Rust rounds finite decimal literals to the nearest
double, which never changes the outcome of the parser's comparisons with
0 and 100 except within half an ulp of those bounds); fallible Rust code
returns `Except`.
-/

namespace Aperf

/-! ### Model of `f64` values and of `str::parse::<f64>`
The Rust parser (`trigger_parser.rs` line 17) calls `parts[2].parse::<f64>()`
on input that has already been lowercased (line 11), so only the lowercase
forms of the float grammar are modelled:
`[+-]? ("inf" | "infinity" | "nan" | digits [.digits?] | .digits) [e[+-]?digits]`.
-/

inductive FVal where
  | nan : FVal
  | posInf : FVal
  | negInf : FVal
  | fin : Rat → FVal
deriving DecidableEq, Repr

/-- Result of the f64 comparison `x < q` (false whenever `x` is NaN). -/
def FVal.ltRat : FVal → Rat → Bool
  | .nan, _ => false
  | .posInf, _ => false
  | .negInf, _ => true
  | .fin r, q => decide (r < q)

/-- Result of the f64 comparison `x > q` (false whenever `x` is NaN). -/
def FVal.gtRat : FVal → Rat → Bool
  | .nan, _ => false
  | .posInf, _ => true
  | .negInf, _ => false
  | .fin r, q => decide (q < r)

/-- Strip an optional leading sign; returns (isNegative, rest). -/
def stripSign (cs : List Char) : Bool × List Char :=
  match cs with
  | '-' :: rest => (true, rest)
  | '+' :: rest => (false, rest)
  | _ => (false, cs)

/-- Value of a digit string, most significant first. -/
def digitsVal (cs : List Char) : Nat :=
  cs.foldl (fun a c => a * 10 + (c.toNat - 48)) 0

/-- Nonempty all-digit string. -/
def isDigits (cs : List Char) : Bool :=
  !cs.isEmpty && cs.all Char.isDigit

/-- Parse a nonempty digit run (the grammar's `Count`). -/
def parseCount (cs : List Char) : Option Nat :=
  if isDigits cs then some (digitsVal cs) else none

/-- Parse the mantissa part `digits [. digits?] | . digits` exactly, as a
numerator together with a power-of-ten denominator. -/
def parseMantissa (cs : List Char) : Option (Nat × Nat) :=
  let ip := cs.takeWhile (fun c => c ≠ '.')
  let rest := cs.dropWhile (fun c => c ≠ '.')
  match rest with
  | [] => if isDigits ip then some (digitsVal ip, 1) else none
  | _ :: fp =>
    if ip.isEmpty then
      if isDigits fp then some (digitsVal fp, 10 ^ fp.length) else none
    else
      if isDigits ip && fp.all Char.isDigit then
        some (digitsVal ip * 10 ^ fp.length + digitsVal fp, 10 ^ fp.length)
      else none

/-- Combine sign, mantissa and decimal exponent into the exact rational value
`±(num/den)·10^e`. -/
def ratOfParts (neg : Bool) (num den : Nat) (e : Int) : Rat :=
  let sn : Int := if neg then -(num : Int) else (num : Int)
  match e with
  | .ofNat k => mkRat (sn * ((10 ^ k : Nat) : Int)) den
  | .negSucc k => mkRat sn (den * 10 ^ (k + 1))

/-- Model of `str::parse::<f64>` on lowercase input. -/
def parseF64 (s : List Char) : Option FVal :=
  let sgn := stripSign s
  let neg := sgn.1
  let cs := sgn.2
  if cs = "inf".toList ∨ cs = "infinity".toList then
    some (if neg then .negInf else .posInf)
  else if cs = "nan".toList then some .nan
  else
    let mant := cs.takeWhile (fun c => c ≠ 'e')
    let rest := cs.dropWhile (fun c => c ≠ 'e')
    let expPart : Option Int :=
      match rest with
      | [] => some 0
      | _ :: ecs =>
        let esgn := stripSign ecs
        match parseCount esgn.2 with
        | some n => some (if esgn.1 then -(n : Int) else (n : Int))
        | none => none
    match parseMantissa mant, expPart with
    | some m, some e => some (.fin (ratOfParts neg m.1 m.2 e))
    | _, _ => none

/-! ### Model of the `&str` operations used by `parse_cpu_trigger` -/

/-- Model of `str::trim`: drop leading and trailing whitespace. -/
def trimChars (cs : List Char) : List Char :=
  ((cs.dropWhile Char.isWhitespace).reverse.dropWhile Char.isWhitespace).reverse

/-- Model of `str::to_lowercase` (ASCII range, which covers the grammar). -/
def lowerChars (cs : List Char) : List Char := cs.map Char.toLower

/-- Model of `str::starts_with`. -/
def startsWith (p cs : List Char) : Bool := cs.take p.length == p

/-- Fold step for `split_whitespace`, processing characters right to left. -/
def splitWSStep (c : Char) (acc : List Char × List (List Char)) :
    List Char × List (List Char) :=
  if c.isWhitespace then
    if acc.1.isEmpty then ([], acc.2) else ([], acc.1 :: acc.2)
  else (c :: acc.1, acc.2)

/-- Model of `str::split_whitespace().collect()`: maximal nonempty runs of
non-whitespace characters, in order. -/
def split_whitespace (cs : List Char) : List (List Char) :=
  let r := cs.foldr splitWSStep ([], [])
  if r.1.isEmpty then r.2 else r.1 :: r.2

/-! ### `trigger_parser.rs`: `CpuTrigger` and `parse_cpu_trigger` -/

structure CpuTrigger where
  threshold : FVal
deriving DecidableEq, Repr

deriving instance DecidableEq for Except

/-- The three distinct `bail!`/error sites of `parse_cpu_trigger`. -/
inductive TriggerErr where
  | invalidThreshold : TriggerErr
  | thresholdRange : TriggerErr
  | invalidFormat : TriggerErr
deriving DecidableEq, Repr

/-- Model of `parse_cpu_trigger` (trigger_parser.rs lines 10-29): lowercase the
trimmed expression, require the `cpu` prefix, split on whitespace into exactly
`["cpu", ">", number]`, parse the number, and range-check it against 0 and 100
with f64 comparisons. Every other shape falls through to the final
"Invalid trigger format" `bail!`. -/
def parse_cpu_trigger (expression : List Char) : Except TriggerErr CpuTrigger :=
  if startsWith "cpu".toList (lowerChars (trimChars expression)) then
    match split_whitespace (lowerChars (trimChars expression)) with
    | [p0, p1, p2] =>
      if p0 = "cpu".toList ∧ p1 = ['>'] then
        match parseF64 p2 with
        | none => .error .invalidThreshold
        | some t =>
          if t.ltRat 0 || t.gtRat 100 then .error .thresholdRange
          else .ok ⟨t⟩
      else .error .invalidFormat
    | _ => .error .invalidFormat
  else .error .invalidFormat

/-- The threshold an expression of the accepted shape `cpu > t` carries, read
off with the same preprocessing `parse_cpu_trigger` performs; `none` for any
other shape. -/
def exprThreshold (expression : List Char) : Option FVal :=
  match split_whitespace (lowerChars (trimChars expression)) with
  | [p0, p1, p2] =>
    if p0 = "cpu".toList ∧ p1 = ['>'] then parseF64 p2 else none
  | _ => none

/-- Restatement of the spec's words for C10: a threshold "in [0, 100]" is a
finite value between 0 and 100. -/
def specThresholdInRange : FVal → Bool
  | .fin q => decide (0 ≤ q ∧ q ≤ 100)
  | _ => false

/-! ### `monitor.rs`: the monitoring loop's trigger state machine

Wall-clock time is modelled in seconds as a `Nat` clock threaded through the
loop.  Each iteration of the `loop` in `monitor_with_triggers` (lines 141-232)
first sleeps `record.interval` seconds, collects data, and evaluates the
condition `cpu_pct > cpu_trigger.threshold`; that boolean is the per-tick
input `hit`.  `captureDur` is the unspecified wall time the capture handoff
(directory creation, dumps, `run_record`, rename) takes on a firing tick; on a
non-final firing the loop then sleeps `record.cooldown` seconds before the
next iteration.
-/

structure TriggerCfg where
  interval : Nat
  trigger_times : Nat
  trigger_count : Nat
  cooldown : Nat
  captureDur : Nat
deriving DecidableEq, Repr

/-- Mutable loop state: `consecutive_triggers` and the firing counter
`trigger_count` (both local variables of `monitor_with_triggers`), the wall
clock, and whether the loop has hit its `break`. -/
structure MonState where
  consecutive_triggers : Nat
  trigger_count : Nat
  clock : Nat
  finished : Bool
deriving DecidableEq, Repr

def initMonState : MonState := ⟨0, 0, 0, false⟩

/-- Result of one loop iteration: the wall-clock instant at which the trigger
condition was evaluated, whether a recording session fired, and the state
left for the next iteration. -/
structure TickOut where
  evalTime : Nat
  fired : Bool
  state : MonState
deriving DecidableEq, Repr

/-- One iteration of the monitoring loop (monitor.rs lines 141-232): sleep
`interval`; evaluate the condition (`hit`); on a hit increment
`consecutive_triggers` and, once it reaches `trigger_times`, fire — increment
`trigger_count`, run the capture sequence, reset `consecutive_triggers` to 0,
`break` if the session maximum is reached and otherwise sleep `cooldown`.  On
a miss reset `consecutive_triggers` to 0. -/
def monitorTick (cfg : TriggerCfg) (s : MonState) (hit : Bool) : TickOut :=
  if hit then
    if cfg.trigger_times ≤ s.consecutive_triggers + 1 then
      if cfg.trigger_count ≤ s.trigger_count + 1 then
        ⟨s.clock + cfg.interval, true,
          ⟨0, s.trigger_count + 1, s.clock + cfg.interval + cfg.captureDur, true⟩⟩
      else
        ⟨s.clock + cfg.interval, true,
          ⟨0, s.trigger_count + 1,
            s.clock + cfg.interval + cfg.captureDur + cfg.cooldown, false⟩⟩
    else
      ⟨s.clock + cfg.interval, false,
        ⟨s.consecutive_triggers + 1, s.trigger_count, s.clock + cfg.interval, false⟩⟩
  else
    ⟨s.clock + cfg.interval, false, ⟨0, s.trigger_count, s.clock + cfg.interval, false⟩⟩

/-- Run the monitoring loop on a list of per-tick condition outcomes,
stopping at the `break` after the final recording session. -/
def monitorRun (cfg : TriggerCfg) (s : MonState) : List Bool → List TickOut
  | [] => []
  | h :: hs =>
    if s.finished then []
    else
      let o := monitorTick cfg s h
      o :: monitorRun cfg o.state hs

/-- Evaluation instants of a run that fall inside the wall-clock window
`(lo, hi]`. -/
def ticksInWindow (lo hi : Nat) (tr : List TickOut) : List Nat :=
  (tr.map TickOut.evalTime).filter (fun t => lo < t && t ≤ hi)

/-! ### `monitor.rs`: history buffers

`serialize_and_buffer` (lines 263-277) pushes the freshly serialized blob to
the back of the `VecDeque` and pops the front element if the length now
exceeds `capacity`, where `capacity = (record.period / record.interval)`
(line 99, integer division). -/

/-- Buffer capacity, monitor.rs line 99. -/
def bufferCapacity (period interval : Nat) : Nat := period / interval

/-- Buffer update of `serialize_and_buffer`: `push_back` then conditional
`pop_front`. -/
def serialize_and_buffer (capacity : Nat) (buf : List (List Nat))
    (blob : List Nat) : List (List Nat) :=
  if capacity < (buf ++ [blob]).length then (buf ++ [blob]).tail
  else buf ++ [blob]

/-! ### `monitor.rs`: CPU usage calculation

`calculate_cpu_usage` (lines 238-260) feeds the two raw snapshots through the
reporting aggregation pipeline (`process_gathered_raw_data` and
`get_aggregate_data`, both external to this crate's monitor) and then computes
`100.0 - data.last().map(|d| d.values.idle as f32).unwrap_or(0.0)` from the
resulting series.  The aggregated series is the input here; its `idle` field
is an f64 percentage, modelled as an exact rational. -/

structure CpuDataValues where
  idle : Rat
deriving DecidableEq, Repr

structure CpuData where
  values : CpuDataValues
deriving DecidableEq, Repr

/-- Final step of `calculate_cpu_usage` on the aggregated delta series:
`100.0 - data.last().map(|d| d.values.idle).unwrap_or(0.0)`.  Subtraction on
the exact rationals mirrors the f64 subtraction (exact for these magnitudes'
purposes). -/
def calculate_cpu_usage (data : List CpuData) : Rat :=
  100 - (((data.getLast?).map fun d => d.values.idle).getD 0)

/-! ### `monitor.rs`: dumping buffers and the capture sequence

`dump_buffer_to_file` (lines 304-310) creates the file and then writes every
buffered blob, front to back, with `write_all`; the payload is therefore the
concatenation of the blobs in chronological order and depends on nothing
else.  The enclosing file name (`dump_buffers_to_disk`, lines 292-299) is
`<kind>_<ts>.bin` inside the timestamp-named run directory.

The capture sequence on a firing (lines 178-213) is: `create_dir_all` (`?`),
`dump_buffers_to_disk` (`?`), `run_record` (`?`), a best-effort `fs::rename`
whose result is discarded (`let _ =`), then `clear_all_buffers`.  The
fallibility of each I/O step is modelled by boolean oracles. -/

/-- Payload bytes written by `dump_buffer_to_file`: each blob appended in
iteration order. -/
def dump_bytes (buffer : List (List Nat)) : List Nat :=
  buffer.foldl (fun acc blob => acc ++ blob) []

/-- Name of a dump file: `<kind>_<ts>.bin`. -/
def dump_file_name (kind ts : List Char) : List Char :=
  kind ++ ('_' :: ts) ++ ".bin".toList

/-- One dump as performed by `dump_buffers_to_disk`: the timestamp reaches
only the file name, never the payload. -/
def dump_file (buffer : List (List Nat)) (kind ts : List Char) :
    List Char × List Nat :=
  (dump_file_name kind ts, dump_bytes buffer)

/-- A single dump with its I/O oracle (`File::create` / `write_all` success). -/
def dump_buffer_to_file (buffer : List (List Nat)) (ioOk : Bool) :
    Except Unit (List Nat) :=
  if ioOk then .ok (dump_bytes buffer) else .error ()

/-- Sequential dump of all buffers, stopping at the first I/O failure
(`dump_buffers_to_disk` with `?` on every call). -/
def dumpAllFrom (ioOk : Nat → Bool) : Nat → List (List (List Nat)) →
    Except Unit (List (List Nat))
  | _, [] => .ok []
  | i, b :: bs =>
    match dump_buffer_to_file b (ioOk i) with
    | .error e => .error e
    | .ok p =>
      match dumpAllFrom ioOk (i + 1) bs with
      | .error e => .error e
      | .ok ps => .ok (p :: ps)

/-- I/O oracles for one firing's capture sequence. -/
structure CaptureIO where
  mkdirOk : Bool
  dumpOk : Nat → Bool
  recordOk : Bool

/-- Outcome of one firing's capture sequence: the buffers after it, the
payloads of the dump files that were fully written, and whether the sequence
succeeded (an `Err` return from this point of `monitor_with_triggers` aborts
the whole monitor). -/
structure CaptureOutcome where
  bufs : List (List (List Nat))
  dumped : List (List Nat)
  ok : Bool
deriving Repr

/-- The capture sequence of monitor.rs lines 178-213.  Buffers are only ever
mutated by the final `clear_all_buffers`; every failing step propagates with
`?` before that call. -/
def capture_sequence (bufs : List (List (List Nat))) (io : CaptureIO) :
    CaptureOutcome :=
  if io.mkdirOk = false then ⟨bufs, [], false⟩
  else
    match dumpAllFrom io.dumpOk 0 bufs with
    | .error _ => ⟨bufs, [], false⟩
    | .ok ps =>
      if io.recordOk = false then ⟨bufs, ps, false⟩
      else ⟨bufs.map (fun _ => []), ps, true⟩

/-! ### `record.rs`: startup validation and dispatch

`record` (record.rs lines 81-102) dispatches to `monitor_with_triggers` as
its very first step whenever `trigger_metrics` is set; the
period/interval/`interval >= period` checks at lines 89-102 run only in the
non-trigger path.  `monitor_with_triggers` itself (monitor.rs lines 70-76)
parses the trigger expression and then checks only
`interval == 0 || period == 0`. -/

inductive RecordErr where
  | triggerParse : TriggerErr → RecordErr
  | invalidParams : RecordErr
deriving DecidableEq, Repr

/-- Validation prefix of `monitor_with_triggers` (monitor.rs lines 70-76):
everything that can reject the configuration before the monitoring loop is
entered.  `.ok ()` means the loop starts. -/
def monitor_with_triggers_validate (trigger_expr : List Char)
    (interval period : Nat) : Except RecordErr Unit :=
  match parse_cpu_trigger trigger_expr with
  | .error e => .error (.triggerParse e)
  | .ok _ =>
    if interval = 0 ∨ period = 0 then .error .invalidParams
    else .ok ()

/-- Validation behaviour of `record` (record.rs lines 81-102): trigger mode
short-circuits to `monitor_with_triggers`; otherwise the three parameter
checks run in order. -/
def record_validate (trigger_metrics : Option (List Char))
    (interval period : Nat) : Except RecordErr Unit :=
  match trigger_metrics with
  | some expr => monitor_with_triggers_validate expr interval period
  | none =>
    if period = 0 then .error .invalidParams
    else if interval = 0 then .error .invalidParams
    else if period ≤ interval then .error .invalidParams
    else .ok ()

/-! ## Concrete evaluations of the embedded code -/

example : parse_cpu_trigger "cpu > 80".toList = .ok ⟨.fin 80⟩ := by decide
example : parse_cpu_trigger "unknownmetric > 5".toList = .error .invalidFormat := by rfl
example : parse_cpu_trigger "custom /bin/true".toList = .error .invalidFormat := by rfl
example : parse_cpu_trigger "cpu > 150".toList = .error .thresholdRange := by decide
example : parse_cpu_trigger "cpu > -5".toList = .error .thresholdRange := by decide
example : parse_cpu_trigger "cpu > nan".toList = .ok ⟨.nan⟩ := by rfl
example : parse_cpu_trigger "  CPU  >  42.5  ".toList = .ok ⟨.fin (mkRat 85 2)⟩ := by
  decide
example : record_validate (some "cpu > 80".toList) 5 3 = .ok () := by decide
example : record_validate none 5 3 = .error .invalidParams := by decide
example : record_validate (some "cpu > 80".toList) 0 3 =
    .error .invalidParams := by decide

/-! ## Helper lemmas -/

lemma serialize_and_buffer_length_le (capacity : Nat) (buf : List (List Nat))
    (blob : List Nat) (h : buf.length ≤ capacity) :
    (serialize_and_buffer capacity buf blob).length ≤ capacity := by
  unfold serialize_and_buffer
  by_cases hc : capacity < (buf ++ [blob]).length
  · rw [if_pos hc, List.length_tail]
    simp only [List.length_append, List.length_singleton]
    omega
  · rw [if_neg hc]
    simp only [List.length_append, List.length_singleton] at hc ⊢
    omega

lemma dump_bytes_aux (l : List (List Nat)) :
    ∀ acc : List Nat, l.foldl (fun acc blob => acc ++ blob) acc = acc ++ l.flatten := by
  induction l with
  | nil => intro acc; simp
  | cons b bs ih => intro acc; simp [ih, List.append_assoc]

lemma dump_bytes_eq_flatten (buffer : List (List Nat)) :
    dump_bytes buffer = buffer.flatten := by
  unfold dump_bytes
  simpa using dump_bytes_aux buffer []

/-- C2: for every configured capacity `C = period / interval`, the buffer
update of `serialize_and_buffer` keeps `len ≤ C` after every completed push,
and a push onto a buffer already holding `C > 0` entries drops exactly the
front (oldest) entry, keeping the remaining entries in order (at `C = 0` the
freshly pushed entry is itself immediately evicted, the only behaviour
consistent with `len ≤ C`). -/
theorem C2_history_buffer_bounded_fifo :
    (∀ period interval : Nat, ∀ buf : List (List Nat), ∀ blobs : List (List Nat),
      buf.length ≤ bufferCapacity period interval →
      (blobs.foldl (serialize_and_buffer (bufferCapacity period interval)) buf).length ≤
        bufferCapacity period interval)
    ∧ (∀ capacity : Nat, ∀ buf : List (List Nat), ∀ blob : List Nat,
      buf.length = capacity → 0 < capacity →
      serialize_and_buffer capacity buf blob = buf.tail ++ [blob]) := by
  constructor
  · intro period interval buf blobs
    induction blobs generalizing buf with
    | nil => intro h; simpa using h
    | cons b bs ih =>
      intro h
      exact ih _ (serialize_and_buffer_length_le _ _ _ h)
  · intro capacity buf blob hlen hpos
    match buf, hlen with
    | [], hlen => simp at hlen; omega
    | a :: as, hlen =>
      simp only [List.length_cons] at hlen
      have hc : capacity < ((a :: as) ++ [blob]).length := by
        simp only [List.length_append, List.length_cons, List.length_singleton]
        omega
      unfold serialize_and_buffer
      rw [if_pos hc]
      rfl

/-- C2 witness: the invariant and the FIFO eviction at concrete inputs
(capacity `4 / 2 = 2`). -/
theorem C2_history_buffer_bounded_fifo_witness :
    (([[0], [1], [2]] : List (List Nat)).foldl
        (serialize_and_buffer (bufferCapacity 4 2)) []).length ≤ bufferCapacity 4 2
    ∧ serialize_and_buffer 2 [[0], [1]] [2] = [[1], [2]] := by
  constructor
  · exact C2_history_buffer_bounded_fifo.1 4 2 [] [[0], [1], [2]] (by decide)
  · exact C2_history_buffer_bounded_fifo.2 2 [[0], [1]] [2] (by decide) (by decide)

/-- C3 (code bug): on an empty aggregated series `calculate_cpu_usage` returns
`100.0 - unwrap_or(0.0) = 100` busy percent, not the 0% the spec requires
("never spuriously triggers"); a 100% reading satisfies every admissible
threshold below 100.  In the non-empty case the claim's formula
`100 - idle(last)` does hold. -/
theorem C3_empty_aggregation_busy_percent :
    calculate_cpu_usage [] = 100
    ∧ (∀ (l : List CpuData) (d : CpuData),
        calculate_cpu_usage (l ++ [d]) = 100 - d.values.idle) := by
  constructor
  · unfold calculate_cpu_usage
    simp
  · intro l d
    unfold calculate_cpu_usage
    simp

/-- C9: the payload bytes of a dump are a function of the buffered blobs
alone — the concatenation of the blobs in chronological order; dumping the
same buffer under two different timestamps yields byte-identical payloads
(the timestamp reaches only the file name). -/
theorem C9_dump_deterministic :
    ∀ (buffer : List (List Nat)) (kind ts ts2 : List Char),
      (dump_file buffer kind ts).2 = (dump_file buffer kind ts2).2
      ∧ (dump_file buffer kind ts).2 = buffer.flatten
      ∧ (dump_file buffer kind ts).1 = dump_file_name kind ts := by
  intro buffer kind ts ts2
  exact ⟨rfl, dump_bytes_eq_flatten buffer, rfl⟩

lemma dumpAllFrom_ok (ioOk : Nat → Bool) :
    ∀ (i : Nat) (bufs : List (List (List Nat))) (ps : List (List Nat)),
      dumpAllFrom ioOk i bufs = .ok ps → ps = bufs.map dump_bytes := by
  intro i bufs
  induction bufs generalizing i with
  | nil => intro ps h; simp [dumpAllFrom] at h; simp [h.symm]
  | cons b bs ih =>
    intro ps h
    unfold dumpAllFrom dump_buffer_to_file at h
    by_cases hio : ioOk i = true
    · rw [hio] at h
      simp only [if_true] at h
      cases hrest : dumpAllFrom ioOk (i + 1) bs with
      | error e => rw [hrest] at h; simp at h
      | ok qs =>
        rw [hrest] at h
        simp only [Except.ok.injEq] at h
        subst h
        simp [ih (i + 1) qs hrest]
    · simp only [Bool.not_eq_true] at hio
      rw [hio] at h
      simp at h

/-- C8: writing the buffers to disk never removes or modifies their contents,
and they are cleared only after the whole capture sequence (directory
creation, every dump, the Recorder) has succeeded: on any failure the
outcome's buffers are exactly the input buffers, and on success the buffers
are empty and each written payload is the chronological concatenation of the
corresponding buffer's blobs. -/
theorem C8_capture_failure_atomicity :
    ∀ (bufs : List (List (List Nat))) (io : CaptureIO),
      ((capture_sequence bufs io).ok = false → (capture_sequence bufs io).bufs = bufs)
      ∧ ((capture_sequence bufs io).ok = true →
          (capture_sequence bufs io).bufs = bufs.map (fun _ => [])
          ∧ (capture_sequence bufs io).dumped = bufs.map dump_bytes) := by
  intro bufs io
  by_cases hm : io.mkdirOk = false
  · simp [capture_sequence, hm]
  · rw [Bool.not_eq_false] at hm
    cases hd : dumpAllFrom io.dumpOk 0 bufs with
    | error e => simp [capture_sequence, hm, hd]
    | ok ps =>
      by_cases hr : io.recordOk = false
      · simp [capture_sequence, hm, hd, hr]
      · rw [Bool.not_eq_false] at hr
        simp only [capture_sequence, hm, hd, hr]
        constructor
        · intro hcontra
          simp at hcontra
        · intro _
          refine ⟨by simp, ?_⟩
          simp [dumpAllFrom_ok io.dumpOk 0 bufs ps hd]

/-- C8 witness: a Recorder failure leaves both buffers exactly as they were;
full success clears them and dumps the concatenated blobs. -/
theorem C8_capture_failure_atomicity_witness :
    (capture_sequence [[[1], [2]], [[3]]] ⟨true, fun _ => true, false⟩).bufs =
      [[[1], [2]], [[3]]]
    ∧ (capture_sequence [[[1], [2]], [[3]]] ⟨true, fun _ => true, true⟩).bufs =
      [[], []]
    ∧ (capture_sequence [[[1], [2]], [[3]]] ⟨true, fun _ => true, true⟩).dumped =
      [[1, 2], [3]] := by
  refine ⟨?_, ?_, ?_⟩
  · exact (C8_capture_failure_atomicity [[[1], [2]], [[3]]]
      ⟨true, fun _ => true, false⟩).1 rfl
  · exact ((C8_capture_failure_atomicity [[[1], [2]], [[3]]]
      ⟨true, fun _ => true, true⟩).2 rfl).1
  · exact ((C8_capture_failure_atomicity [[[1], [2]], [[3]]]
      ⟨true, fun _ => true, true⟩).2 rfl).2

lemma parse_cpu_trigger_not_cpu (expr : List Char)
    (h : startsWith "cpu".toList (lowerChars (trimChars expr)) = false) :
    parse_cpu_trigger expr = .error .invalidFormat := by
  unfold parse_cpu_trigger
  rw [h]
  simp

lemma startsWith_custom_not_cpu (cs : List Char)
    (h : startsWith "custom".toList cs = true) :
    startsWith "cpu".toList cs = false := by
  unfold startsWith at h ⊢
  rw [beq_iff_eq] at h
  rw [beq_eq_false_iff_ne]
  intro hcontra
  have h3 : cs.take 3 = "cpu".toList := hcontra
  have h6 : cs.take 6 = "custom".toList := h
  have key : cs.take 3 = ("custom".toList).take 3 := by
    have h0 : (cs.take 6).take 3 = ("custom".toList).take 3 := by rw [h6]
    rwa [List.take_take, show min 3 6 = 3 from rfl] at h0
  rw [key] at h3
  exact absurd h3 (by decide)

/-- C5 counterexample: the expression `unknownmetric > 5` is not evaluated to
false by defaulting the unknown metric to 0.0 — it is rejected outright as a
parse error (`Invalid trigger format`). -/
theorem C5_counterexample_unknown_metric :
    parse_cpu_trigger "unknownmetric > 5".toList = .error .invalidFormat := by
  rfl

/-- C5 (amended): an expression naming an unrecognized metric is reported as
a parse error, not evaluated with the metric defaulted to 0.0: whatever does
not start with `cpu` after trimming and lowercasing — in particular any
unknown metric name — makes `parse_cpu_trigger` fail with the
`Invalid trigger format` error. -/
theorem C5_unknown_metric_parse_error_amended :
    ∀ expr : List Char,
      startsWith "cpu".toList (lowerChars (trimChars expr)) = false →
      parse_cpu_trigger expr = .error .invalidFormat :=
  parse_cpu_trigger_not_cpu

/-- C5 witness: the amended statement at the claim's own example. -/
theorem C5_unknown_metric_parse_error_amended_witness :
    parse_cpu_trigger "unknownmetric > 5".toList = .error .invalidFormat :=
  C5_unknown_metric_parse_error_amended "unknownmetric > 5".toList (by rfl)

/-- C6 counterexample: `evaluate("custom /bin/true", ...)` does not return
true — the shipped parser has no `custom` clause at all and rejects the
expression as a parse error, so no shell command is ever run. -/
theorem C6_counterexample_custom_clause :
    parse_cpu_trigger "custom /bin/true".toList = .error .invalidFormat := by
  rfl

/-- C6 (amended): a trigger expression containing a `custom` clause is
rejected with the `Invalid trigger format` parse error (every expression
whose trimmed lowercased form starts with `custom` fails to parse); the
clause's shell command is never executed and no short-circuit semantics
exists in the shipped code. -/
theorem C6_custom_clause_parse_error_amended :
    ∀ expr : List Char,
      startsWith "custom".toList (lowerChars (trimChars expr)) = true →
      parse_cpu_trigger expr = .error .invalidFormat :=
  fun expr h => parse_cpu_trigger_not_cpu expr (startsWith_custom_not_cpu _ h)

/-- C6 witness: the amended statement at the spec's other `custom` example. -/
theorem C6_custom_clause_parse_error_amended_witness :
    parse_cpu_trigger "custom /bin/false".toList = .error .invalidFormat :=
  C6_custom_clause_parse_error_amended "custom /bin/false".toList (by rfl)

/-- C10 counterexample: the literal `nan` parses as an f64, and NaN compares
neither below 0 nor above 100, so `cpu > nan` passes the range check and
yields a trigger whose threshold is not a number in [0, 100]. -/
theorem C10_counterexample_nan_threshold :
    parse_cpu_trigger "cpu > nan".toList = .ok ⟨.nan⟩
    ∧ specThresholdInRange FVal.nan = false :=
  ⟨by rfl, by rfl⟩

/-- C10 (amended): whenever the expression has the accepted `cpu > t` shape
and the parsed threshold is a finite value below 0 or above 100, parsing
returns an error; a successfully parsed trigger's threshold never compares
below 0 or above 100, and every successfully parsed finite threshold lies in
[0, 100] — but the non-finite literal `nan` also parses successfully, since
NaN fails both f64 comparisons of the range check. -/
theorem C10_threshold_range_amended :
    (∀ (expr : List Char) (q : Rat),
      startsWith "cpu".toList (lowerChars (trimChars expr)) = true →
      exprThreshold expr = some (.fin q) → q < 0 ∨ 100 < q →
      parse_cpu_trigger expr = .error .thresholdRange)
    ∧ (∀ (expr : List Char) (t : CpuTrigger),
      parse_cpu_trigger expr = .ok t →
      (t.threshold.ltRat 0 = false ∧ t.threshold.gtRat 100 = false)
      ∧ ∀ q : Rat, t.threshold = .fin q → 0 ≤ q ∧ q ≤ 100) := by
  constructor
  · intro expr q hs hth hq
    · unfold exprThreshold at hth
      unfold parse_cpu_trigger
      rw [hs, if_pos rfl]
      rcases hsp : split_whitespace (lowerChars (trimChars expr)) with
        _ | ⟨p0, _ | ⟨p1, _ | ⟨p2, _ | ps⟩⟩⟩
      · rw [hsp] at hth; exact Option.noConfusion hth
      · rw [hsp] at hth; exact Option.noConfusion hth
      · rw [hsp] at hth; exact Option.noConfusion hth
      · rw [hsp] at hth
        dsimp only [] at hth ⊢
        by_cases hg : p0 = "cpu".toList ∧ p1 = ['>']
        · rw [if_pos hg] at hth ⊢
          rw [hth]
          have hcond : ((FVal.fin q).ltRat 0 || (FVal.fin q).gtRat 100) = true := by
            rcases hq with hq | hq
            · simp [FVal.ltRat, hq]
            · simp [FVal.gtRat, hq]
          dsimp only []
          rw [hcond, if_pos rfl]
        · rw [if_neg hg] at hth; exact Option.noConfusion hth
      · rw [hsp] at hth; exact Option.noConfusion hth
  · intro expr t hok
    unfold parse_cpu_trigger at hok
    by_cases hs : startsWith "cpu".toList (lowerChars (trimChars expr)) = true
    case neg =>
      rw [Bool.not_eq_true] at hs
      rw [hs] at hok
      simp at hok
    case pos =>
      rw [hs, if_pos rfl] at hok
      rcases hsp : split_whitespace (lowerChars (trimChars expr)) with
        _ | ⟨p0, _ | ⟨p1, _ | ⟨p2, _ | ps⟩⟩⟩
      · rw [hsp] at hok; exact Except.noConfusion hok
      · rw [hsp] at hok; exact Except.noConfusion hok
      · rw [hsp] at hok; exact Except.noConfusion hok
      · rw [hsp] at hok
        dsimp only [] at hok
        by_cases hg : p0 = "cpu".toList ∧ p1 = ['>']
        · rw [if_pos hg] at hok
          cases hpf : parseF64 p2 with
          | none => rw [hpf] at hok; exact Except.noConfusion hok
          | some v =>
            rw [hpf] at hok
            dsimp only [] at hok
            by_cases hrange : (v.ltRat 0 || v.gtRat 100) = true
            · rw [hrange, if_pos rfl] at hok
              exact Except.noConfusion hok
            · rw [Bool.not_eq_true] at hrange
              rw [hrange] at hok
              simp only [Bool.false_eq_true, if_false, Except.ok.injEq] at hok
              rw [← hok]
              have hlt : v.ltRat 0 = false := (Bool.or_eq_false_iff.mp hrange).1
              have hgt : v.gtRat 100 = false := (Bool.or_eq_false_iff.mp hrange).2
              refine ⟨⟨hlt, hgt⟩, ?_⟩
              intro q hfin
              simp only [CpuTrigger.threshold] at hfin
              rw [hfin] at hlt hgt
              simp only [FVal.ltRat, FVal.gtRat, decide_eq_false_iff_not] at hlt hgt
              exact ⟨le_of_not_lt hlt, le_of_not_lt hgt⟩
        · rw [if_neg hg] at hok; exact Except.noConfusion hok
      · rw [hsp] at hok; exact Except.noConfusion hok

/-- C10 witness: the out-of-range literal `cpu > 150` is rejected and the
accepted `cpu > 80` lands inside [0, 100]. -/
theorem C10_threshold_range_amended_witness :
    parse_cpu_trigger "cpu > 150".toList = .error .thresholdRange
    ∧ (0 ≤ (80 : Rat) ∧ (80 : Rat) ≤ 100) := by
  constructor
  · exact C10_threshold_range_amended.1 "cpu > 150".toList 150 (by rfl)
      (by decide) (Or.inr (by decide))
  · exact (C10_threshold_range_amended.2 "cpu > 80".toList ⟨.fin 80⟩
      (by decide)).2 80 rfl

lemma monitorTick_evalTime (cfg : TriggerCfg) (s : MonState) (hit : Bool) :
    (monitorTick cfg s hit).evalTime = s.clock + cfg.interval := by
  unfold monitorTick
  split_ifs <;> rfl

lemma monitorTick_fired_iff (cfg : TriggerCfg) (s : MonState) (hit : Bool) :
    (monitorTick cfg s hit).fired = true ↔
      (hit = true ∧ cfg.trigger_times ≤ s.consecutive_triggers + 1) := by
  unfold monitorTick
  split_ifs with h1 h2 h3 <;> simp_all

lemma monitorTick_fire_state (cfg : TriggerCfg) (s : MonState) (hit : Bool)
    (h : (monitorTick cfg s hit).fired = true) :
    (monitorTick cfg s hit).state.consecutive_triggers = 0
    ∧ (monitorTick cfg s hit).state.trigger_count = s.trigger_count + 1 := by
  unfold monitorTick at h ⊢
  split_ifs at h ⊢ <;> simp_all

lemma monitorTick_consec_le (cfg : TriggerCfg) (s : MonState) (hit : Bool) :
    (monitorTick cfg s hit).state.consecutive_triggers ≤
      s.consecutive_triggers + 1 := by
  unfold monitorTick
  split_ifs <;> simp

lemma monitorTick_miss_consec (cfg : TriggerCfg) (s : MonState)
    (h : (monitorTick cfg s false).state.consecutive_triggers ≠ 0) : False := by
  unfold monitorTick at h
  simp at h

lemma monitorTick_clock_ge (cfg : TriggerCfg) (s : MonState) (hit : Bool) :
    (monitorTick cfg s hit).evalTime ≤ (monitorTick cfg s hit).state.clock := by
  unfold monitorTick
  split_ifs <;> simp <;> omega

lemma monitorTick_fire_clock (cfg : TriggerCfg) (s : MonState) (hit : Bool)
    (h : (monitorTick cfg s hit).fired = true)
    (hfin : (monitorTick cfg s hit).state.finished = false) :
    (monitorTick cfg s hit).state.clock =
      (monitorTick cfg s hit).evalTime + cfg.captureDur + cfg.cooldown := by
  unfold monitorTick at h hfin ⊢
  split_ifs at h hfin ⊢ <;> simp_all

lemma monitorRun_nil (cfg : TriggerCfg) (s : MonState) :
    monitorRun cfg s [] = [] := rfl

lemma monitorRun_cons (cfg : TriggerCfg) (s : MonState) (h : Bool)
    (hs : List Bool) :
    monitorRun cfg s (h :: hs) =
      if s.finished then []
      else monitorTick cfg s h ::
        monitorRun cfg (monitorTick cfg s h).state hs := rfl

lemma monitorRun_finished (cfg : TriggerCfg) (s : MonState) (hits : List Bool)
    (h : s.finished = true) : monitorRun cfg s hits = [] := by
  cases hits with
  | nil => rfl
  | cons a as => unfold monitorRun; rw [h]; simp

lemma monitorRun_evalTime_lb (cfg : TriggerCfg) :
    ∀ (hits : List Bool) (s : MonState), ∀ o ∈ monitorRun cfg s hits,
      s.clock + cfg.interval ≤ o.evalTime := by
  intro hits
  induction hits with
  | nil => intro s o ho; simp [monitorRun] at ho
  | cons h hs ih =>
    intro s o ho
    unfold monitorRun at ho
    by_cases hfin : s.finished = true
    · rw [hfin] at ho; simp at ho
    · rw [Bool.not_eq_true] at hfin
      rw [hfin] at ho
      simp only [Bool.false_eq_true, if_false, List.mem_cons] at ho
      cases ho with
      | inl heq => rw [heq, monitorTick_evalTime]
      | inr hmem =>
        have h1 := ih (monitorTick cfg s h).state o hmem
        have h2 := monitorTick_clock_ge cfg s h
        have h3 := monitorTick_evalTime cfg s h
        omega

lemma monitorRun_fire_lower_bound (cfg : TriggerCfg) :
    ∀ (hits : List Bool) (s : MonState) (k : Nat) (o : TickOut),
      (monitorRun cfg s hits).get? k = some o → o.fired = true →
      cfg.trigger_times ≤ s.consecutive_triggers + k + 1 := by
  intro hits
  induction hits with
  | nil => intro s k o hget; rw [monitorRun_nil] at hget; simp at hget
  | cons h hs ih =>
    intro s k o hget hfired
    rw [monitorRun_cons] at hget
    by_cases hfin : s.finished = true
    · rw [if_pos hfin] at hget; simp at hget
    · rw [Bool.not_eq_true] at hfin
      rw [hfin] at hget
      simp only [Bool.false_eq_true, if_false] at hget
      cases k with
      | zero =>
        simp only [List.get?_cons_zero, Option.some.injEq] at hget
        rw [← hget] at hfired
        have := (monitorTick_fired_iff cfg s h).mp hfired
        omega
      | succ k2 =>
        simp only [List.get?_cons_succ] at hget
        have h1 := ih (monitorTick cfg s h).state k2 o hget hfired
        have h2 := monitorTick_consec_le cfg s h
        omega

lemma monitorRun_trailing_true (cfg : TriggerCfg) :
    ∀ (hits : List Bool) (s : MonState) (k : Nat) (o : TickOut),
      (monitorRun cfg s hits).get? k = some o → o.fired = true →
      ∀ j : Nat, j ≤ k → k < j + cfg.trigger_times → hits.getD j false = true := by
  intro hits
  induction hits with
  | nil => intro s k o hget; rw [monitorRun_nil] at hget; simp at hget
  | cons h hs ih =>
    intro s k o hget hfired j hj hw
    rw [monitorRun_cons] at hget
    by_cases hfin : s.finished = true
    · rw [if_pos hfin] at hget; simp at hget
    · rw [Bool.not_eq_true] at hfin
      rw [hfin] at hget
      simp only [Bool.false_eq_true, if_false] at hget
      cases k with
      | zero =>
        simp only [List.get?_cons_zero, Option.some.injEq] at hget
        rw [← hget] at hfired
        have hc := (monitorTick_fired_iff cfg s h).mp hfired
        have hj0 : j = 0 := by omega
        rw [hj0]
        simpa using hc.1
      | succ k2 =>
        simp only [List.get?_cons_succ] at hget
        cases j with
        | succ j2 =>
          have := ih (monitorTick cfg s h).state k2 o hget hfired j2
            (by omega) (by omega)
          simpa using this
        | zero =>
          cases hh : h with
          | true => simp [hh]
          | false =>
            have hb := monitorRun_fire_lower_bound cfg hs
              (monitorTick cfg s h).state k2 o hget hfired
            have hz : (monitorTick cfg s h).state.consecutive_triggers = 0 := by
              rw [hh]
              by_contra hne
              exact monitorTick_miss_consec cfg s hne
            rw [hz] at hb
            omega

lemma monitorRun_after_fire_gap (cfg : TriggerCfg) (s : MonState) (hit : Bool)
    (hits : List Bool) (hf : (monitorTick cfg s hit).fired = true) :
    ∀ o2 ∈ monitorRun cfg (monitorTick cfg s hit).state hits,
      (monitorTick cfg s hit).evalTime + cfg.captureDur + cfg.cooldown +
        cfg.interval ≤ o2.evalTime := by
  intro o2 ho2
  by_cases hfin : (monitorTick cfg s hit).state.finished = true
  · rw [monitorRun_finished cfg _ hits hfin] at ho2
    simp at ho2
  · rw [Bool.not_eq_true] at hfin
    have h1 := monitorRun_evalTime_lb cfg hits (monitorTick cfg s hit).state o2 ho2
    have h2 := monitorTick_fire_clock cfg s hit hf hfin
    omega

/-- C1 counterexample: with `trigger_times = 2`, `interval = 1`,
`cooldown = 20` and the condition true on every tick, the loop fires on tick
2 but not on tick 3, although the condition was then true on 2 consecutive
ticks ending at tick 3 (`hits = [true, true, true]`) and the cooldown
deadline of the tick-2 firing (wall clock `2 + 20 = 22`) had already passed
when tick 3 was evaluated at wall clock 23 — the firing-side reset of the
consecutive-hit counter makes the claimed if-and-only-if fail. -/
theorem C1_counterexample_fire_iff :
    (monitorRun ⟨1, 2, 5, 20, 0⟩ initMonState [true, true, true]).map
        TickOut.fired = [false, true, false]
    ∧ (monitorRun ⟨1, 2, 5, 20, 0⟩ initMonState [true, true, true]).map
        TickOut.evalTime = [1, 2, 23]
    ∧ 2 + 20 ≤ 23 :=
  ⟨by decide, by decide, by decide⟩

/-- C1 (amended): a capture is initiated on a tick if and only if the
condition holds on that tick and the consecutive-hit counter — which resets
to 0 on every miss and after every firing — reaches `trigger_times`; whenever
tick `k` of a run fires, the condition held on the `trigger_times` consecutive
ticks ending at `k`; on firing the session counter is incremented and the
consecutive-hit counter is reset to 0; and every later tick is evaluated at
least `captureDur + cooldown + interval` seconds after the firing evaluation,
so no further firing can occur within `cooldown` seconds. -/
theorem C1_trigger_state_machine_amended :
    (∀ (cfg : TriggerCfg) (s : MonState) (hit : Bool),
      (monitorTick cfg s hit).fired = true ↔
        (hit = true ∧ cfg.trigger_times ≤ s.consecutive_triggers + 1))
    ∧ (∀ (cfg : TriggerCfg) (hits : List Bool) (s : MonState) (k : Nat)
        (o : TickOut), (monitorRun cfg s hits).get? k = some o →
        o.fired = true →
        ∀ j : Nat, j ≤ k → k < j + cfg.trigger_times → hits.getD j false = true)
    ∧ (∀ (cfg : TriggerCfg) (s : MonState) (hit : Bool),
        (monitorTick cfg s hit).fired = true →
        (monitorTick cfg s hit).state.consecutive_triggers = 0
        ∧ (monitorTick cfg s hit).state.trigger_count = s.trigger_count + 1)
    ∧ (∀ (cfg : TriggerCfg) (s : MonState) (hit : Bool) (hits : List Bool),
        (monitorTick cfg s hit).fired = true →
        ∀ o2 ∈ monitorRun cfg (monitorTick cfg s hit).state hits,
          (monitorTick cfg s hit).evalTime + cfg.captureDur + cfg.cooldown +
            cfg.interval ≤ o2.evalTime) := by
  refine ⟨monitorTick_fired_iff, ?_, monitorTick_fire_state, ?_⟩
  · intro cfg hits
    exact monitorRun_trailing_true cfg hits
  · intro cfg s hit hits hf
    exact monitorRun_after_fire_gap cfg s hit hits hf

/-- C1 witness: the amended characterisation at concrete inputs
(`interval = 1`, `trigger_times = 2`, `trigger_count = 5`, `cooldown = 20`,
`captureDur = 0`). -/
theorem C1_trigger_state_machine_amended_witness :
    (monitorTick ⟨1, 2, 5, 20, 0⟩ ⟨1, 0, 1, false⟩ true).fired = true
    ∧ ([true, true].getD 0 false = true)
    ∧ (monitorTick ⟨1, 2, 5, 20, 0⟩ ⟨1, 0, 1, false⟩ true).state.consecutive_triggers = 0
    ∧ (monitorTick ⟨1, 2, 5, 20, 0⟩ ⟨1, 0, 1, false⟩ true).state.trigger_count = 1
    ∧ 2 + 0 + 20 + 1 ≤
        (monitorTick ⟨1, 2, 5, 20, 0⟩ ⟨0, 1, 22, false⟩ true).evalTime := by
  refine ⟨?_, ?_, ?_, ?_, ?_⟩
  · exact (C1_trigger_state_machine_amended.1 ⟨1, 2, 5, 20, 0⟩
      ⟨1, 0, 1, false⟩ true).mpr ⟨rfl, by decide⟩
  · exact C1_trigger_state_machine_amended.2.1 ⟨1, 2, 5, 20, 0⟩ [true, true]
      initMonState 1
      (monitorTick ⟨1, 2, 5, 20, 0⟩
        (monitorTick ⟨1, 2, 5, 20, 0⟩ initMonState true).state true)
      (by decide) (by decide) 0 (by decide) (by decide)
  · exact (C1_trigger_state_machine_amended.2.2.1 ⟨1, 2, 5, 20, 0⟩
      ⟨1, 0, 1, false⟩ true (by decide)).1
  · exact (C1_trigger_state_machine_amended.2.2.1 ⟨1, 2, 5, 20, 0⟩
      ⟨1, 0, 1, false⟩ true (by decide)).2
  · exact C1_trigger_state_machine_amended.2.2.2 ⟨1, 2, 5, 20, 0⟩
      ⟨1, 0, 1, false⟩ true [true] (by decide)
      (monitorTick ⟨1, 2, 5, 20, 0⟩ ⟨0, 1, 22, false⟩ true) (by decide)

/-- C4 counterexample: with `trigger_times = 1`, `interval = 1`,
`cooldown = 20` and the condition always true, the two ticks of the run are
evaluated at wall clock 1 and 22 — no tick, condition evaluation, or
counter update happens at any instant inside the cooldown window `(1, 21]`
that follows the tick-1 firing, contradicting the claim that the loop keeps
ticking during cooldown. -/
theorem C4_counterexample_ticks_during_cooldown :
    (monitorRun ⟨1, 1, 5, 20, 0⟩ initMonState [true, true]).map
        TickOut.evalTime = [1, 22]
    ∧ (monitorRun ⟨1, 1, 5, 20, 0⟩ initMonState [true, true]).map
        TickOut.fired = [true, true]
    ∧ ticksInWindow 1 21 (monitorRun ⟨1, 1, 5, 20, 0⟩ initMonState
        [true, true]) = [] :=
  ⟨by decide, by decide, by decide⟩

/-- C4 (amended): after a non-final firing the loop blocks in
`thread::sleep(cooldown)`: the clock left for the next iteration is the
firing evaluation instant plus `captureDur + cooldown`, and every subsequent
tick is evaluated no earlier than `captureDur + cooldown + interval` seconds
after the firing evaluation — no tick, condition evaluation, or
consecutive-hit counting happens during the cooldown window; firing is
suppressed only because the whole loop is. -/
theorem C4_cooldown_blocks_ticks_amended :
    ∀ (cfg : TriggerCfg) (s : MonState) (hit : Bool) (hits : List Bool),
      (monitorTick cfg s hit).fired = true →
      (monitorTick cfg s hit).state.finished = false →
      (monitorTick cfg s hit).state.clock =
        (monitorTick cfg s hit).evalTime + cfg.captureDur + cfg.cooldown
      ∧ ∀ o2 ∈ monitorRun cfg (monitorTick cfg s hit).state hits,
          (monitorTick cfg s hit).evalTime + cfg.captureDur + cfg.cooldown +
            cfg.interval ≤ o2.evalTime := by
  intro cfg s hit hits hf hfin
  exact ⟨monitorTick_fire_clock cfg s hit hf hfin,
    monitorRun_after_fire_gap cfg s hit hits hf⟩

/-- C4 witness: the amended statement at the concrete configuration of the
counterexample. -/
theorem C4_cooldown_blocks_ticks_amended_witness :
    (monitorTick ⟨1, 1, 5, 20, 0⟩ initMonState true).state.clock =
      (monitorTick ⟨1, 1, 5, 20, 0⟩ initMonState true).evalTime + 0 + 20 := by
  exact (C4_cooldown_blocks_ticks_amended ⟨1, 1, 5, 20, 0⟩ initMonState true []
    (by decide) (by decide)).1

/-- C7 counterexample: in trigger mode a configuration with
`period = 3 ≤ 5 = interval` passes validation and the monitoring loop starts
(`record` dispatches to `monitor_with_triggers` before the `interval >=
period` check of the plain record path is ever reached). -/
theorem C7_counterexample_period_le_interval :
    record_validate (some "cpu > 80".toList) 5 3 = .ok () ∧ 3 ≤ 5 :=
  ⟨by decide, by decide⟩

/-- C7 (amended): a zero interval or zero period is rejected before the loop
starts in both modes (in trigger mode after the trigger expression parses,
and an unparsable trigger expression is itself fatal); the
`period ≤ interval` check exists only in the non-trigger record path, and
trigger-based monitoring accepts any nonzero pair, including
`period ≤ interval`. -/
theorem C7_startup_validation_amended :
    (∀ interval period : Nat, interval = 0 ∨ period = 0 →
      record_validate none interval period = .error .invalidParams)
    ∧ (∀ (expr : List Char) (t : CpuTrigger) (interval period : Nat),
      parse_cpu_trigger expr = .ok t → interval = 0 ∨ period = 0 →
      record_validate (some expr) interval period = .error .invalidParams)
    ∧ (∀ (expr : List Char) (e : TriggerErr) (interval period : Nat),
      parse_cpu_trigger expr = .error e →
      record_validate (some expr) interval period = .error (.triggerParse e))
    ∧ (∀ (expr : List Char) (t : CpuTrigger) (interval period : Nat),
      parse_cpu_trigger expr = .ok t → interval ≠ 0 → period ≠ 0 →
      record_validate (some expr) interval period = .ok ())
    ∧ (∀ interval period : Nat, 0 < period → period ≤ interval →
      record_validate none interval period = .error .invalidParams) := by
  refine ⟨?_, ?_, ?_, ?_, ?_⟩
  · intro interval period h
    unfold record_validate
    by_cases hp : period = 0
    · simp [hp]
    · have hi : interval = 0 := by tauto
      simp [hp, hi]
  · intro expr t interval period hpe h
    show monitor_with_triggers_validate expr interval period = _
    unfold monitor_with_triggers_validate
    rw [hpe]
    simp [h]
  · intro expr e interval period hpe
    show monitor_with_triggers_validate expr interval period = _
    unfold monitor_with_triggers_validate
    rw [hpe]
  · intro expr t interval period hpe hi hp
    show monitor_with_triggers_validate expr interval period = _
    unfold monitor_with_triggers_validate
    rw [hpe]
    simp [hi, hp]
  · intro interval period hp hle
    show (if period = 0 then Except.error RecordErr.invalidParams
      else if interval = 0 then Except.error RecordErr.invalidParams
      else if period ≤ interval then Except.error RecordErr.invalidParams
      else Except.ok ()) = _
    have h1 : ¬(period = 0) := by omega
    have h2 : ¬(interval = 0) := by omega
    simp [h1, h2, hle]

/-- C7 witness: concrete instances of all three amended conjuncts. -/
theorem C7_startup_validation_amended_witness :
    record_validate none 0 7 = .error .invalidParams
    ∧ record_validate (some "cpu > 80".toList) 5 0 = .error .invalidParams
    ∧ record_validate (some "oops".toList) 1 5 =
        .error (.triggerParse .invalidFormat)
    ∧ record_validate (some "cpu > 80".toList) 5 3 = .ok ()
    ∧ record_validate none 5 3 = .error .invalidParams := by
  refine ⟨?_, ?_, ?_, ?_, ?_⟩
  · exact C7_startup_validation_amended.1 0 7 (Or.inl rfl)
  · exact C7_startup_validation_amended.2.1 "cpu > 80".toList ⟨.fin 80⟩ 5 0
      (by decide) (Or.inr rfl)
  · exact C7_startup_validation_amended.2.2.1 "oops".toList .invalidFormat 1 5
      (by rfl)
  · exact C7_startup_validation_amended.2.2.2.1 "cpu > 80".toList ⟨.fin 80⟩ 5 3
      (by decide) (by decide) (by decide)
  · exact C7_startup_validation_amended.2.2.2.2 5 3 (by decide) (by decide)

end Aperf
